import Mathlib

/-!
Verification of the connection manager and wire protocol of the
FiretunerTerminal repository (src/civ7_terminal/protocol.py and
src/civ7_terminal/connection.py), shallowly embedded in Lean.

Conventions of the embedding:
* a Python `bytes` value is a `List Nat` of byte values;
* a Python `str` value is a `List Nat` of Unicode code points
  (code points in [0xD800, 0xE000) — lone surrogates — are representable
  in a Python `str` but are rejected by its UTF-8 codec);
* raising `ProtocolError` is returning `Except.error`;
* `float` retry delays are modelled as rationals (all the arithmetic the
  backoff performs on the concrete configured values is exact in binary
  floating point, so no rounding is lost);
* the asyncio machinery of `ConnectionManager` is modelled as explicit
  state (`MgrState`) plus step functions for each suspension-free block
  of the source, and event traces for interleavings.
-/

namespace Civ7

/-! ## Protocol codec (`protocol.py`) -/

/-- `MESSAGE_TYPE = 3` (protocol.py line 9). -/
def MESSAGE_TYPE : Nat := 3

/-- Code points of the ASCII literal `"CMD:65535:"` (protocol.py line 10). -/
def CMD_PREFIX_STR : List Nat := [67, 77, 68, 58, 54, 53, 53, 51, 53, 58]

/-- `HEADER_SIZE = 8` (protocol.py line 11). -/
def HEADER_SIZE : Nat := 8

/-- The distinct `ProtocolError` raise sites of protocol.py. -/
inductive ProtocolError where
  | encodeFailed
  | headerTooShort
  | lengthMismatch
  | invalidUtf8
deriving DecidableEq, Repr

/-- The `Message` dataclass (protocol.py lines 19-23). -/
structure Message where
  msg_type : Nat
  payload : List Nat
deriving DecidableEq, Repr

/-- UTF-8 encoding of a single code point, as performed per character by
Python's `str.encode("utf-8")`: `none` on a lone surrogate or an
out-of-range value (Python raises `UnicodeEncodeError` there). -/
def utf8EncodeChar (n : Nat) : Option (List Nat) :=
  if n < 0x80 then some [n]
  else if n < 0x800 then some [0xC0 + n / 64, 0x80 + n % 64]
  else if n < 0xD800 then some [0xE0 + n / 4096, 0x80 + n / 64 % 64, 0x80 + n % 64]
  else if n < 0xE000 then none
  else if n < 0x10000 then some [0xE0 + n / 4096, 0x80 + n / 64 % 64, 0x80 + n % 64]
  else if n < 0x110000 then some [0xF0 + n / 262144, 0x80 + n / 4096 % 64, 0x80 + n / 64 % 64, 0x80 + n % 64]
  else none

/-- `str.encode("utf-8")` over a whole string. -/
def utf8Encode : List Nat → Option (List Nat)
  | [] => some []
  | c :: cs =>
    match utf8EncodeChar c, utf8Encode cs with
    | some b, some rest => some (b ++ rest)
    | _, _ => none

/-- Whether a byte is a UTF-8 continuation byte (`0x80..0xBF`). -/
def isCont (b : Nat) : Prop := 0x80 ≤ b ∧ b < 0xC0

instance (b : Nat) : Decidable (isCont b) := by unfold isCont; infer_instance

/-- Decoder automaton state: either between characters, or in the middle of
a multi-byte sequence with `acc` the bits collected so far, `need` the
number of continuation bytes still required, and `mn` the smallest code
point the finished sequence may legally denote (rejecting overlongs). -/
inductive Utf8State where
  | fresh
  | mid (acc need mn : Nat)

/-- Strict UTF-8 decoding, one byte at a time, as performed by Python's
`bytes.decode("utf-8")`: rejects stray continuation bytes, truncated or
over-long sequences, surrogates and code points above `0x10FFFF`
(`none` models `UnicodeDecodeError`). -/
def utf8Dec : Utf8State → List Nat → Option (List Nat)
  | .fresh, [] => some []
  | .mid _ _ _, [] => none
  | .fresh, b :: bs =>
    if b < 0x80 then (utf8Dec .fresh bs).map (b :: ·)
    else if b < 0xC0 then none
    else if b < 0xE0 then utf8Dec (.mid (b - 0xC0) 1 0x80) bs
    else if b < 0xF0 then utf8Dec (.mid (b - 0xE0) 2 0x800) bs
    else if b < 0xF8 then utf8Dec (.mid (b - 0xF0) 3 0x10000) bs
    else none
  | .mid acc need mn, b :: bs =>
    if isCont b then
      if need = 1 then
        if mn ≤ acc * 64 + (b - 0x80) ∧
            (acc * 64 + (b - 0x80) < 0xD800 ∨ 0xE000 ≤ acc * 64 + (b - 0x80)) ∧
            acc * 64 + (b - 0x80) < 0x110000 then
          (utf8Dec .fresh bs).map ((acc * 64 + (b - 0x80)) :: ·)
        else none
      else utf8Dec (.mid (acc * 64 + (b - 0x80)) (need - 1) mn) bs
    else none

/-- `bytes.decode("utf-8")` over a whole byte string. -/
def utf8Decode (l : List Nat) : Option (List Nat) := utf8Dec Utf8State.fresh l

/-- The four bytes produced by `struct.pack("<I", n)` for `n < 2^32`
(little endian). -/
def le32 (n : Nat) : List Nat :=
  [n % 256, n / 256 % 256, n / 65536 % 256, n / 16777216 % 256]

/-- The value read back by `struct.unpack("<I", ...)` from four bytes. -/
def le32dec (b0 b1 b2 b3 : Nat) : Nat :=
  b0 + 256 * b1 + 65536 * b2 + 16777216 * b3

/-- `struct.unpack("<II", data[:HEADER_SIZE])`: the `(length, type)` pair
read from the first eight bytes. -/
def structUnpackII (data : List Nat) : Nat × Nat :=
  match data with
  | b0 :: b1 :: b2 :: b3 :: b4 :: b5 :: b6 :: b7 :: _ =>
    (le32dec b0 b1 b2 b3, le32dec b4 b5 b6 b7)
  | _ => (0, 0)

/-- `encode_command` (protocol.py lines 26-55): payload is
`CMD_PREFIX + javascript + "\0"` UTF-8 encoded, header is the payload
length and the message type, each packed as `<I` (which raises — caught
and re-raised as `ProtocolError` — if the length exceeds `0xFFFFFFFF`;
the UTF-8 encoding itself raises on lone surrogates). -/
def encodeCommand (javascript : List Nat) : Except ProtocolError (List Nat) :=
  match utf8Encode (CMD_PREFIX_STR ++ javascript ++ [0]) with
  | none => Except.error ProtocolError.encodeFailed
  | some payloadBytes =>
    if payloadBytes.length < 2 ^ 32 then
      Except.ok (le32 payloadBytes.length ++ le32 MESSAGE_TYPE ++ payloadBytes)
    else Except.error ProtocolError.encodeFailed

/-- `decode_header` (protocol.py lines 58-78). -/
def decodeHeader (data : List Nat) : Except ProtocolError (Nat × Nat) :=
  if data.length < HEADER_SIZE then Except.error ProtocolError.headerTooShort
  else Except.ok (structUnpackII data)

/-- `decode_payload` (protocol.py lines 81-100): strips one trailing NUL
byte if present, then UTF-8 decodes. -/
def decodePayload (data : List Nat) : Except ProtocolError (List Nat) :=
  let trimmed := if data.getLast? = some 0 then data.dropLast else data
  match utf8Decode trimmed with
  | some s => Except.ok s
  | none => Except.error ProtocolError.invalidUtf8

/-- `decode_message` (protocol.py lines 103-123). -/
def decodeMessage (header payload : List Nat) : Except ProtocolError Message :=
  match decodeHeader header with
  | Except.error e => Except.error e
  | Except.ok (length, msgType) =>
    if payload.length ≠ length then Except.error ProtocolError.lengthMismatch
    else
      match decodePayload payload with
      | Except.error e => Except.error e
      | Except.ok s => Except.ok { msg_type := msgType, payload := s }

/-! ## Connection manager (`connection.py`) -/

/-- `ConnectionState` (connection.py lines 18-22). -/
inductive ConnectionState where
  | DISCONNECTED
  | CONNECTING
  | CONNECTED
deriving DecidableEq, Repr

/-- `ConnectionConfig` (connection.py lines 25-32); delays are `float`s in
the source, modelled as rationals. -/
structure ConnectionConfig where
  host : List Nat := [49, 50, 55, 46, 48, 46, 48, 46, 49]
  port : Nat := 4318
  initial_retry_delay : ℚ := 2
  max_retry_delay : ℚ := 30
  retry_backoff_multiplier : ℚ := 2

/-- An `asyncio.Future[str]` placeholder from the `_pending_responses`
correlation queue: pending, resolved by `set_result`, or cancelled. -/
inductive Fut where
  | pending
  | resolved (v : List Nat)
  | cancelled
deriving DecidableEq, Repr

/-- What a `send_command` caller awaiting this future receives:
the payload if it was resolved, `None` if it was cancelled
(`except asyncio.CancelledError: return None`, connection.py
lines 176-177), and nothing yet while pending. -/
def futResult : Fut → Option (List Nat)
  | Fut.resolved v => some v
  | _ => none

/-- `future.set_result(payload)` guarded by `if not future.done()`
(connection.py lines 336-337). -/
def resolveFut (f : Fut) (v : List Nat) : Fut :=
  match f with
  | Fut.pending => Fut.resolved v
  | other => other

/-- `future.cancel()` guarded by `if not future.done()`
(connection.py lines 262-263, and the cancellation performed by
`asyncio.wait_for` on timeout in line 171). -/
def cancelFut (f : Fut) : Fut :=
  match f with
  | Fut.pending => Fut.cancelled
  | other => other

/-- Decimal digits (code points) of a nonnegative integer, as rendered by
Python's `f"{n}"`; the fuel `n + 1` always suffices. -/
def decDigitsAux : Nat → Nat → List Nat
  | 0, _ => []
  | fuel + 1, n =>
    if n < 10 then [48 + n] else decDigitsAux fuel (n / 10) ++ [48 + n % 10]

/-- Decimal rendering of a `Nat` as a list of digit code points. -/
def decDigits (n : Nat) : List Nat := decDigitsAux (n + 1) n

/-- Whether a code point is whitespace for Python's `str.strip()`
(the Unicode whitespace set used by `str.isspace`). -/
def isPySpace (c : Nat) : Bool :=
  decide (c = 32 ∨ (9 ≤ c ∧ c ≤ 13) ∨ (28 ≤ c ∧ c ≤ 31) ∨ c = 133 ∨ c = 160 ∨
    c = 5760 ∨ (8192 ≤ c ∧ c ≤ 8202) ∨ c = 8232 ∨ c = 8233 ∨ c = 8239 ∨
    c = 8287 ∨ c = 12288)

/-- Python's `str.strip()`: drop leading and trailing whitespace. -/
def pyStrip (s : List Nat) : List Nat :=
  ((s.dropWhile isPySpace).reverse.dropWhile isPySpace).reverse

/-- The observable state of a `ConnectionManager` (connection.py
lines 50-86).  Callback invocations are modelled as append-only logs
(`responses` for `on_response`, `errors` for `on_error`); futures are kept
in the creation-order list `futs` and `pendingQueue` holds the indices
still inside the `_pending_responses` queue, oldest first.
`commandQueue` is `_command_queue`; the three task flags record which
asyncio tasks are alive, and `writerOpen` whether `_writer` is set. -/
structure MgrState where
  connState : ConnectionState
  commandQueue : List (List Nat)
  pendingQueue : List Nat
  futs : List Fut
  responses : List (List Nat)
  errors : List (List Nat × Bool)
  lastErrorMsg : Option (List Nat)
  errorCount : Nat
  connectionTask : Bool
  senderTask : Bool
  receiverTask : Bool
  writerOpen : Bool
  shutdown : Bool
deriving DecidableEq, Repr

/-- The state built by `ConnectionManager.__init__` (connection.py
lines 50-86): disconnected, empty queues, no tasks. -/
def initialState : MgrState :=
  { connState := ConnectionState.DISCONNECTED
    commandQueue := []
    pendingQueue := []
    futs := []
    responses := []
    errors := []
    lastErrorMsg := none
    errorCount := 0
    connectionTask := false
    senderTask := false
    receiverTask := false
    writerOpen := false
    shutdown := false }

/-- `_notify_error` (connection.py lines 104-115): collapse repeated
identical messages; a repeat emits `f"{message} (x{count})"` with
`is_repeat = True`, a fresh message resets the counter and is emitted
verbatim with `is_repeat = False`. -/
def notifyError (st : MgrState) (message : List Nat) : MgrState :=
  if some message = st.lastErrorMsg then
    { st with
      errorCount := st.errorCount + 1
      errors := st.errors ++
        [(message ++ [32, 40, 120] ++ decDigits (st.errorCount + 1) ++ [41], true)] }
  else
    { st with
      lastErrorMsg := some message
      errorCount := 1
      errors := st.errors ++ [(message, false)] }

/-- The synchronous enqueue phase of `send_command` (connection.py
lines 149-167): a blank command returns `None` immediately with no
effect; otherwise the command is queued and a fresh pending future is
appended to the correlation queue, in that order.  Returns the updated
state and the index of the created future (`none` if blank). -/
def sendCommand (st : MgrState) (javascript : List Nat) : MgrState × Option Nat :=
  if pyStrip javascript = [] then (st, none)
  else
    ({ st with
        commandQueue := st.commandQueue ++ [javascript]
        pendingQueue := st.pendingQueue ++ [st.futs.length]
        futs := st.futs ++ [Fut.pending] },
      some st.futs.length)

/-- The per-message body of `_receiver_loop` (connection.py lines
330-339): fire `on_response` with the decoded payload, then pop the
oldest placeholder from `_pending_responses` (if any) and resolve it
if it is not already done.  The message type is never inspected. -/
def deliverMessage (st : MgrState) (msg : Message) : MgrState :=
  let st1 := { st with responses := st.responses ++ [msg.payload] }
  match st1.pendingQueue with
  | [] => st1
  | i :: rest =>
    { st1 with
      pendingQueue := rest
      futs := st1.futs.set i (resolveFut (st1.futs.getD i Fut.pending) msg.payload) }

/-- `_close_connection` (connection.py lines 245-265): close the writer,
set the state to `DISCONNECTED`, and drain `_pending_responses`,
cancelling every future that is not yet done. -/
def closeConnection (st : MgrState) : MgrState :=
  let st1 := { st with writerOpen := false, connState := ConnectionState.DISCONNECTED }
  { st1 with
    pendingQueue := []
    futs := st1.pendingQueue.foldl
      (fun fs i => fs.set i (cancelFut (fs.getD i Fut.pending))) st1.futs }

/-- `stop` (connection.py lines 130-147): set the shutdown event, cancel
and await the sender, receiver and connection tasks, then run
`_close_connection` and clear the task fields.  No error callback is
fired anywhere on this path. -/
def stop (st : MgrState) : MgrState :=
  closeConnection
    { st with
      shutdown := true
      senderTask := false
      receiverTask := false
      connectionTask := false }

/-- Events visible to the command/response correlator while connected:
a `send_command` call, the arrival of one decoded inbound message in the
receiver loop, and a `send_command` caller timing out (the `wait_for`
cancels its own future — index `i` in creation order — but leaves it in
the correlation queue). -/
inductive Ev where
  | send (cmd : List Nat)
  | recv (resp : List Nat)
  | timeout (i : Nat)

/-- Apply one event to the manager state. -/
def applyEv (st : MgrState) (e : Ev) : MgrState :=
  match e with
  | Ev.send c => (sendCommand st c).1
  | Ev.recv r => deliverMessage st { msg_type := MESSAGE_TYPE, payload := r }
  | Ev.timeout i => { st with futs := st.futs.set i (cancelFut (st.futs.getD i Fut.pending)) }

/-- Run a trace of events. -/
def runTrace (st : MgrState) (evs : List Ev) : MgrState := evs.foldl applyEv st

/-- The commands of the `send` events of a trace, in order. -/
def sendList : List Ev → List (List Nat)
  | [] => []
  | Ev.send c :: es => c :: sendList es
  | _ :: es => sendList es

/-- The payloads of the `recv` events of a trace, in order. -/
def recvList : List Ev → List (List Nat)
  | [] => []
  | Ev.recv r :: es => r :: recvList es
  | _ :: es => recvList es

/-- Number of `send` events. -/
def sendCount : List Ev → Nat
  | [] => 0
  | Ev.send _ :: es => sendCount es + 1
  | _ :: es => sendCount es

/-- Number of `recv` events. -/
def recvCount : List Ev → Nat
  | [] => 0
  | Ev.recv _ :: es => recvCount es + 1
  | _ :: es => recvCount es

/-- Whether a trace contains only `send` and `recv` events. -/
def onlySendRecv (evs : List Ev) : Bool :=
  evs.all fun e => match e with
    | Ev.timeout _ => false
    | _ => true

/-- Whether every `send` event of a trace carries a non-blank command. -/
def sendsOk (evs : List Ev) : Bool :=
  evs.all fun e => match e with
    | Ev.send c => decide (pyStrip c ≠ [])
    | _ => true

/-- The number of not-yet-resolved placeholders inside the correlation
queue. -/
def unresolvedCount (st : MgrState) : Nat :=
  st.pendingQueue.countP fun i => decide (st.futs.getD i Fut.pending = Fut.pending)

/-! ## Retry/backoff controller (`connection.py`) -/

/-- One pass of the countdown loop of `_wait_for_retry` (connection.py
lines 269-281) with shutdown never signalled: each iteration sleeps
`min(1.0, remaining)` seconds and decrements `remaining` by `1.0`;
`tickSum fuel r` is the total time slept, for any `fuel ≥ ⌈r⌉`. -/
def tickSum : Nat → ℚ → ℚ
  | 0, _ => 0
  | fuel + 1, r => if 0 < r then min 1 r + tickSum fuel (r - 1) else 0

/-- Total wall-clock wait performed by `_wait_for_retry` for a current
retry delay `d` (shutdown not signalled). -/
def totalWait (d : ℚ) : ℚ := tickSum ⌈d⌉₊ d

/-- The delay update at the end of `_wait_for_retry` (connection.py lines
282-286): `min(current * multiplier, max)`. -/
def backoffUpdate (cfg : ConnectionConfig) (d : ℚ) : ℚ :=
  min (d * cfg.retry_backoff_multiplier) cfg.max_retry_delay

/-- The retry delay before the `n`-th consecutive failed reconnect wait:
`_retry_delay` starts at the configured initial value and is updated by
`_wait_for_retry` after each wait. -/
def delaySeq (cfg : ConnectionConfig) : Nat → ℚ
  | 0 => cfg.initial_retry_delay
  | n + 1 => backoffUpdate cfg (delaySeq cfg n)

/-- The `_retry_delay` value set by `_connection_loop` when a connection
succeeds (connection.py line 187). -/
def onConnectedDelay (cfg : ConnectionConfig) : ℚ := cfg.initial_retry_delay

/-- Decidable equality for `Except` results (componentwise). -/
instance {ε α : Type} [DecidableEq ε] [DecidableEq α] : DecidableEq (Except ε α) := fun x y =>
  match x, y with
  | Except.ok a, Except.ok b =>
    if h : a = b then isTrue (by rw [h]) else
      isFalse (by intro hh; exact h (Except.ok.inj hh))
  | Except.error a, Except.error b =>
    if h : a = b then isTrue (by rw [h]) else
      isFalse (by intro hh; exact h (Except.error.inj hh))
  | Except.ok _, Except.error _ => isFalse (by intro hh; exact Except.noConfusion hh)
  | Except.error _, Except.ok _ => isFalse (by intro hh; exact Except.noConfusion hh)

/-- A manager state while connected with exactly one command outstanding
(its future pending at queue position 0), used to instantiate the
shutdown claims. -/
def busyState : MgrState :=
  { initialState with
    connState := ConnectionState.CONNECTED
    pendingQueue := [0]
    futs := [Fut.pending]
    connectionTask := true
    senderTask := true
    receiverTask := true
    writerOpen := true }

/-- A concrete three-command trace (commands `"a" "b" "c"`, responses
`"x" "y" "z"`) used to instantiate the FIFO correlation claim. -/
def abcTrace : List Ev :=
  [Ev.send [97], Ev.send [98], Ev.send [99],
   Ev.recv [120], Ev.recv [121], Ev.recv [122]]

/-! ### UTF-8 round trip -/

lemma utf8EncodeChar_decode (n : Nat) (bs rest : List Nat)
    (h : utf8EncodeChar n = some bs) :
    utf8Dec Utf8State.fresh (bs ++ rest) =
      (utf8Dec Utf8State.fresh rest).map (n :: ·) := by
  unfold utf8EncodeChar at h
  split_ifs at h with h1 h2 h3 h4 h5 h6
  · obtain rfl := Option.some.inj h
    simp only [List.cons_append, List.nil_append]
    rw [utf8Dec, if_pos h1]
  · obtain rfl := Option.some.inj h
    simp only [List.cons_append, List.nil_append]
    rw [utf8Dec, if_neg (by omega), if_neg (by omega), if_pos (by omega)]
    rw [utf8Dec, if_pos (by unfold isCont; omega), if_pos rfl, if_pos (by omega)]
    have hX : (0xC0 + n / 64 - 0xC0) * 64 + (0x80 + n % 64 - 0x80) = n := by omega
    rw [hX]
  · obtain rfl := Option.some.inj h
    simp only [List.cons_append, List.nil_append]
    rw [utf8Dec, if_neg (by omega), if_neg (by omega), if_neg (by omega), if_pos (by omega)]
    rw [utf8Dec, if_pos (by unfold isCont; omega), if_neg (by omega)]
    rw [utf8Dec, if_pos (by unfold isCont; omega), if_pos (by omega), if_pos (by omega)]
    have hX : ((0xE0 + n / 4096 - 0xE0) * 64 + (0x80 + n / 64 % 64 - 0x80)) * 64 +
        (0x80 + n % 64 - 0x80) = n := by omega
    rw [hX]
  · obtain rfl := Option.some.inj h
    simp only [List.cons_append, List.nil_append]
    rw [utf8Dec, if_neg (by omega), if_neg (by omega), if_neg (by omega), if_pos (by omega)]
    rw [utf8Dec, if_pos (by unfold isCont; omega), if_neg (by omega)]
    rw [utf8Dec, if_pos (by unfold isCont; omega), if_pos (by omega), if_pos (by omega)]
    have hX : ((0xE0 + n / 4096 - 0xE0) * 64 + (0x80 + n / 64 % 64 - 0x80)) * 64 +
        (0x80 + n % 64 - 0x80) = n := by omega
    rw [hX]
  · obtain rfl := Option.some.inj h
    simp only [List.cons_append, List.nil_append]
    rw [utf8Dec, if_neg (by omega), if_neg (by omega), if_neg (by omega), if_neg (by omega),
      if_pos (by omega)]
    rw [utf8Dec, if_pos (by unfold isCont; omega), if_neg (by omega)]
    rw [utf8Dec, if_pos (by unfold isCont; omega), if_neg (by omega)]
    rw [utf8Dec, if_pos (by unfold isCont; omega), if_pos (by omega), if_pos (by omega)]
    have hX : (((0xF0 + n / 262144 - 0xF0) * 64 + (0x80 + n / 4096 % 64 - 0x80)) * 64 +
        (0x80 + n / 64 % 64 - 0x80)) * 64 + (0x80 + n % 64 - 0x80) = n := by omega
    rw [hX]

lemma utf8Encode_decode (s : List Nat) : ∀ bs, utf8Encode s = some bs →
    utf8Decode bs = some s := by
  induction s with
  | nil =>
    intro bs h
    obtain rfl := Option.some.inj h
    rfl
  | cons c cs ih =>
    intro bs h
    unfold utf8Encode at h
    cases hc : utf8EncodeChar c with
    | none => rw [hc] at h; dsimp only at h; exact Option.noConfusion h
    | some b =>
      cases he : utf8Encode cs with
      | none => rw [hc, he] at h; dsimp only at h; exact Option.noConfusion h
      | some rest =>
        rw [hc, he] at h
        dsimp only at h
        obtain rfl := Option.some.inj h
        have hr := ih rest he
        unfold utf8Decode at hr ⊢
        rw [utf8EncodeChar_decode c b rest hc, hr]
        rfl

lemma utf8Encode_append (xs ys a b : List Nat)
    (hx : utf8Encode xs = some a) (hy : utf8Encode ys = some b) :
    utf8Encode (xs ++ ys) = some (a ++ b) := by
  induction xs generalizing a with
  | nil =>
    obtain rfl := Option.some.inj hx
    simpa using hy
  | cons x xs ih =>
    unfold utf8Encode at hx
    cases hcx : utf8EncodeChar x with
    | none => rw [hcx] at hx; dsimp only at hx; exact Option.noConfusion hx
    | some b0 =>
      cases hex : utf8Encode xs with
      | none => rw [hcx, hex] at hx; dsimp only at hx; exact Option.noConfusion hx
      | some r =>
        rw [hcx, hex] at hx
        dsimp only at hx
        obtain rfl := Option.some.inj hx
        have hr := ih r hex
        show utf8Encode (x :: (xs ++ ys)) = some (b0 ++ r ++ b)
        rw [utf8Encode, hcx, hr]
        rw [List.append_assoc]

lemma utf8Encode_append_split (xs ys c : List Nat)
    (h : utf8Encode (xs ++ ys) = some c) :
    ∃ a b, utf8Encode xs = some a ∧ utf8Encode ys = some b ∧ c = a ++ b := by
  induction xs generalizing c with
  | nil => exact ⟨[], c, rfl, h, rfl⟩
  | cons x xs ih =>
    rw [List.cons_append] at h
    unfold utf8Encode at h
    cases hcx : utf8EncodeChar x with
    | none => rw [hcx] at h; dsimp only at h; exact Option.noConfusion h
    | some b0 =>
      cases hrest : utf8Encode (xs ++ ys) with
      | none => rw [hcx, hrest] at h; dsimp only at h; exact Option.noConfusion h
      | some r =>
        rw [hcx, hrest] at h
        dsimp only at h
        obtain rfl := Option.some.inj h
        obtain ⟨a, b, ha, hb, rfl⟩ := ih r hrest
        refine ⟨b0 ++ a, b, ?_, hb, by rw [List.append_assoc]⟩
        rw [utf8Encode, hcx, ha]

/-! ### Header and message decoding helpers -/

lemma decodeMessage_ok (t : Nat) (p s : List Nat)
    (ht : t < 2 ^ 32) (hp : p.length < 2 ^ 32) (hs : decodePayload p = Except.ok s) :
    decodeMessage (le32 p.length ++ le32 t) p = Except.ok { msg_type := t, payload := s } := by
  have hu : structUnpackII (le32 p.length ++ le32 t) = (p.length, t) := by
    simp only [le32, List.cons_append, List.nil_append, structUnpackII]
    rw [Prod.mk.injEq]
    exact ⟨by unfold le32dec; omega, by unfold le32dec; omega⟩
  have hh : decodeHeader (le32 p.length ++ le32 t) = Except.ok (p.length, t) := by
    unfold decodeHeader
    rw [if_neg (by simp [le32, HEADER_SIZE]), hu]
  unfold decodeMessage
  rw [hh]
  dsimp only
  rw [if_neg (by omega), hs]

/-! ### Backoff countdown helpers -/

lemma tickSum_nonpos (fuel : Nat) (r : ℚ) (h : r ≤ 0) : tickSum fuel r = 0 := by
  cases fuel with
  | zero => rfl
  | succ f => unfold tickSum; rw [if_neg (not_lt.mpr h)]

lemma tickSum_eq (fuel : Nat) : ∀ r : ℚ, 0 ≤ r → r ≤ (fuel : ℚ) → tickSum fuel r = r := by
  induction fuel with
  | zero =>
    intro r h0 h1
    rw [Nat.cast_zero] at h1
    have : r = 0 := le_antisymm h1 h0
    rw [this]
    rfl
  | succ f ih =>
    intro r h0 h1
    unfold tickSum
    by_cases hr : 0 < r
    · rw [if_pos hr]
      push_cast at h1
      by_cases hr1 : r ≤ 1
      · rw [min_eq_right hr1, tickSum_nonpos f (r - 1) (by linarith)]
        ring
      · rw [min_eq_left (by linarith), ih (r - 1) (by linarith) (by linarith)]
        ring
    · rw [if_neg hr]
      linarith

lemma totalWait_eq (d : ℚ) (h : 0 ≤ d) : totalWait d = d :=
  tickSum_eq ⌈d⌉₊ d h (Nat.le_ceil d)

/-! ### Cancellation fold helpers -/

lemma foldl_cancel_preserve (qs : List Nat) : ∀ (fs : List Fut) (i : Nat),
    fs.getD i Fut.pending = Fut.cancelled →
    (qs.foldl (fun fs j => fs.set j (cancelFut (fs.getD j Fut.pending))) fs).getD i
      Fut.pending = Fut.cancelled := by
  induction qs with
  | nil => intro fs i h; exact h
  | cons q qs ih =>
    intro fs i h
    rw [List.foldl_cons]
    apply ih
    by_cases hqi : q = i
    · subst hqi
      by_cases hl : q < fs.length
      · rw [List.getD_eq_getElem?_getD, List.getElem?_set_self hl]
        simp only [Option.getD_some]
        rw [h]
        rfl
      · rw [List.set_eq_of_length_le (by omega)]
        exact h
    · rw [List.getD_eq_getElem?_getD, List.getElem?_set_ne hqi, ← List.getD_eq_getElem?_getD]
      exact h

lemma foldl_cancel_mem (qs : List Nat) : ∀ (fs : List Fut) (i : Nat),
    i ∈ qs → i < fs.length → fs.getD i Fut.pending = Fut.pending →
    (qs.foldl (fun fs j => fs.set j (cancelFut (fs.getD j Fut.pending))) fs).getD i
      Fut.pending = Fut.cancelled := by
  induction qs with
  | nil => intro fs i hi; exact absurd hi (List.not_mem_nil i)
  | cons q qs ih =>
    intro fs i hi hlen hp
    rw [List.foldl_cons]
    by_cases hqi : q = i
    · subst hqi
      apply foldl_cancel_preserve
      rw [List.getD_eq_getElem?_getD, List.getElem?_set_self hlen]
      simp only [Option.getD_some]
      rw [hp]
      rfl
    · have hi' : i ∈ qs := by
        rcases List.mem_cons.mp hi with h | h
        · exact absurd h.symm hqi
        · exact h
      apply ih
      · exact hi'
      · rw [List.length_set]; exact hlen
      · rw [List.getD_eq_getElem?_getD, List.getElem?_set_ne hqi, ← List.getD_eq_getElem?_getD]
        exact hp

/-! ## Claims -/

/-- Claim C2: for every command string `s` containing no NUL character,
splitting the frame produced by `encode_command(s)` into its 8-byte header
and remaining payload bytes and applying `decode_message` succeeds and
yields a `Message` whose payload equals `"CMD:65535:" + s`. -/
theorem round_trip (s frame : List Nat) (hnul : 0 ∉ s)
    (henc : encodeCommand s = Except.ok frame) :
    decodeMessage (frame.take 8) (frame.drop 8) =
      Except.ok { msg_type := MESSAGE_TYPE, payload := CMD_PREFIX_STR ++ s } := by
  unfold encodeCommand at henc
  cases hu : utf8Encode (CMD_PREFIX_STR ++ s ++ [0]) with
  | none =>
    rw [hu] at henc
    dsimp only at henc
    exact Except.noConfusion henc
  | some pb =>
    rw [hu] at henc
    dsimp only at henc
    by_cases hlen : pb.length < 2 ^ 32
    · rw [if_pos hlen] at henc
      obtain rfl := Except.ok.inj henc
      obtain ⟨a, b, ha, hb, rfl⟩ := utf8Encode_append_split (CMD_PREFIX_STR ++ s) [0] pb hu
      have hb0 : b = [0] := by
        have h00 : utf8Encode [0] = some [0] := rfl
        rw [h00] at hb
        exact (Option.some.inj hb).symm
      subst hb0
      have htake : (le32 (a ++ [0]).length ++ le32 MESSAGE_TYPE ++ (a ++ [0])).take 8 =
          le32 (a ++ [0]).length ++ le32 MESSAGE_TYPE := by
        simp [le32, MESSAGE_TYPE]
      have hdrop : (le32 (a ++ [0]).length ++ le32 MESSAGE_TYPE ++ (a ++ [0])).drop 8 =
          a ++ [0] := by
        simp [le32, MESSAGE_TYPE]
      rw [htake, hdrop]
      apply decodeMessage_ok MESSAGE_TYPE (a ++ [0]) (CMD_PREFIX_STR ++ s)
        (by norm_num [MESSAGE_TYPE]) hlen
      unfold decodePayload
      rw [List.getLast?_concat]
      dsimp only
      rw [if_pos rfl, List.dropLast_concat]
      rw [utf8Encode_decode (CMD_PREFIX_STR ++ s) a ha]
    · rw [if_neg hlen] at henc
      exact Except.noConfusion henc

/-- Claim C2 witness: the round trip at the concrete command `"a"`. -/
theorem round_trip_witness :
    decodeMessage
        (([12, 0, 0, 0, 3, 0, 0, 0, 67, 77, 68, 58, 54, 53, 53, 51, 53, 58, 97, 0] :
          List Nat).take 8)
        (([12, 0, 0, 0, 3, 0, 0, 0, 67, 77, 68, 58, 54, 53, 53, 51, 53, 58, 97, 0] :
          List Nat).drop 8) =
      Except.ok { msg_type := MESSAGE_TYPE, payload := CMD_PREFIX_STR ++ [97] } :=
  round_trip [97] _ (by decide) (by rfl)

/-- Claim C3 (amended): for every command string `s` all of whose code
points UTF-8 encode (no lone surrogates) and whose payload
`"CMD:65535:" + s + "\0"` is under `2^32` bytes, `encode_command(s)`
returns exactly the 4-byte little-endian payload length, the 4-byte
little-endian constant 3, and the payload
`"CMD:65535:"` + UTF-8 of `s` + one NUL byte. -/
theorem wire_format (s bs : List Nat) (henc : utf8Encode s = some bs)
    (hlen : (CMD_PREFIX_STR ++ bs ++ [0]).length < 2 ^ 32) :
    encodeCommand s =
      Except.ok (le32 (CMD_PREFIX_STR ++ bs ++ [0]).length ++ le32 MESSAGE_TYPE ++
        (CMD_PREFIX_STR ++ bs ++ [0])) := by
  have hpre : utf8Encode CMD_PREFIX_STR = some CMD_PREFIX_STR := rfl
  have h1 : utf8Encode (CMD_PREFIX_STR ++ s) = some (CMD_PREFIX_STR ++ bs) :=
    utf8Encode_append _ _ _ _ hpre henc
  have h0 : utf8Encode [0] = some [0] := rfl
  have h2 : utf8Encode (CMD_PREFIX_STR ++ s ++ [0]) = some (CMD_PREFIX_STR ++ bs ++ [0]) :=
    utf8Encode_append _ _ _ _ h1 h0
  unfold encodeCommand
  rw [h2]
  dsimp only
  rw [if_pos hlen]

/-- Claim C3 counterexample: for the one-character command consisting of
the lone surrogate U+D800 — a legal Python string — `encode_command`
raises `ProtocolError` instead of returning the header-and-payload bytes
the claim promises for every command string. -/
theorem wire_format_counterexample :
    encodeCommand [0xD800] = Except.error ProtocolError.encodeFailed := rfl

/-- Claim C3 witness: the exact wire format at the concrete command `"a"`. -/
theorem wire_format_witness :
    encodeCommand [97] =
      Except.ok (le32 (CMD_PREFIX_STR ++ [97] ++ [0]).length ++ le32 MESSAGE_TYPE ++
        (CMD_PREFIX_STR ++ [97] ++ [0])) :=
  wire_format [97] [97] (by rfl) (by decide)

/-- Claim C4: `decode_message` fails with `ProtocolError` whenever the
payload byte count differs from the header's length field (for any
mismatch, short or long), and `decode_header` fails with `ProtocolError`
on every input of fewer than 8 bytes. -/
theorem length_integrity :
    (∀ h p : List Nat, HEADER_SIZE ≤ h.length → p.length ≠ (structUnpackII h).1 →
      decodeMessage h p = Except.error ProtocolError.lengthMismatch) ∧
    (∀ d : List Nat, d.length < HEADER_SIZE →
      decodeHeader d = Except.error ProtocolError.headerTooShort) := by
  constructor
  · intro h p hlen hm
    unfold decodeMessage decodeHeader
    rw [if_neg (by omega)]
    rcases hq : structUnpackII h with ⟨L, T⟩
    rw [hq] at hm
    dsimp only at hm ⊢
    rw [if_pos hm]
  · intro d hd
    unfold decodeHeader
    rw [if_pos hd]

/-- Claim C4 witness: a header announcing length 0 with a 1-byte payload
is rejected, and a 3-byte header is rejected. -/
theorem length_integrity_witness :
    decodeMessage [0, 0, 0, 0, 3, 0, 0, 0] [1] =
      Except.error ProtocolError.lengthMismatch ∧
    decodeHeader [1, 2, 3] = Except.error ProtocolError.headerTooShort :=
  ⟨length_integrity.1 [0, 0, 0, 0, 3, 0, 0, 0] [1] (by decide) (by decide),
   length_integrity.2 [1, 2, 3] (by decide)⟩

/-- Claim C10: neither `decode_message` nor the receiver loop validates
the message type: a frame whose header carries any uint32 type value
decodes successfully with that type returned verbatim, and the receiver
dispatch treats the message exactly like a type-3 message. -/
theorem type_not_validated (t : Nat) (p s : List Nat)
    (ht : t < 2 ^ 32) (hp : p.length < 2 ^ 32) (hs : decodePayload p = Except.ok s) :
    decodeMessage (le32 p.length ++ le32 t) p = Except.ok { msg_type := t, payload := s } ∧
    ∀ st : MgrState, deliverMessage st { msg_type := t, payload := s } =
      deliverMessage st { msg_type := MESSAGE_TYPE, payload := s } :=
  ⟨decodeMessage_ok t p s ht hp hs, fun _ => rfl⟩

/-- Claim C10 witness: a frame with type 7 and payload `"hi\0"`. -/
theorem type_not_validated_witness :
    decodeMessage (le32 ([104, 105, 0] : List Nat).length ++ le32 7) [104, 105, 0] =
      Except.ok { msg_type := 7, payload := [104, 105] } ∧
    ∀ st : MgrState, deliverMessage st { msg_type := 7, payload := [104, 105] } =
      deliverMessage st { msg_type := MESSAGE_TYPE, payload := [104, 105] } :=
  type_not_validated 7 [104, 105, 0] [104, 105] (by decide) (by decide) (by rfl)

/-- Claim C8: for every string that is empty or consists only of
whitespace, `send_command` returns `None` immediately with no effect on
any manager state and no callback invocation. -/
theorem blank_command_noop (st : MgrState) (code : List Nat)
    (h : code = [] ∨ ∀ c ∈ code, isPySpace c = true) :
    sendCommand st code = (st, none) := by
  have hb : pyStrip code = [] := by
    rcases h with rfl | h
    · rfl
    · unfold pyStrip
      rw [List.dropWhile_eq_nil_iff.mpr h]
      rfl
  unfold sendCommand
  rw [if_pos hb]

/-- Claim C8 witness: a space-and-tab command leaves the fresh manager
state untouched and returns `None`. -/
theorem blank_command_noop_witness :
    sendCommand initialState [32, 9] = (initialState, none) :=
  blank_command_noop initialState [32, 9] (Or.inr (by decide))

/-- Claim C6 counterexample: the spec promises the literal suffix
`"(×N)"` (multiplication sign U+00D7), but the code emits
`f"{message} (x{count})"` with an ASCII letter x: after two identical
errors `"e"`, the second callback argument is `"e (x2)"`, which is
neither `"e(×2)"` nor `"e (×2)"`. -/
theorem error_dedup_counterexample :
    (notifyError (notifyError initialState [101]) [101]).errors =
      [([101], false), ([101, 32, 40, 120, 50, 41], true)] ∧
    ([101, 32, 40, 120, 50, 41] : List Nat) ≠ [101] ++ [40, 215, 50, 41] ∧
    ([101, 32, 40, 120, 50, 41] : List Nat) ≠ [101] ++ [32, 40, 215, 50, 41] :=
  ⟨rfl, by decide, by decide⟩

/-- Claim C6 (amended): when a new error message equals the immediately
preceding one the counter increments and the callback receives the
message with ASCII suffix `" (xN)"` and `is_repeat = true` (so the second
identical message yields `" (x2)"` and the third `" (x3)"`); a differing
message resets the counter to 1 and the callback receives the unsuffixed
message with `is_repeat = false`. -/
theorem error_dedup (st : MgrState) (m : List Nat) :
    (some m = st.lastErrorMsg →
      notifyError st m = { st with
        errorCount := st.errorCount + 1
        errors := st.errors ++
          [(m ++ [32, 40, 120] ++ decDigits (st.errorCount + 1) ++ [41], true)] }) ∧
    (some m ≠ st.lastErrorMsg →
      notifyError st m = { st with
        lastErrorMsg := some m
        errorCount := 1
        errors := st.errors ++ [(m, false)] }) ∧
    (notifyError (notifyError (notifyError initialState m) m) m).errors =
      [(m, false), (m ++ [32, 40, 120, 50, 41], true), (m ++ [32, 40, 120, 51, 41], true)] := by
  refine ⟨fun h => by unfold notifyError; rw [if_pos h],
    fun h => by unfold notifyError; rw [if_neg h], ?_⟩
  simp [notifyError, initialState, decDigits, decDigitsAux]

/-- Claim C6 witness: a repeat of the message `"e"` over a state that
just reported it once gets the `" (x2)"` suffix and a repeat flag. -/
theorem error_dedup_witness :
    notifyError { initialState with lastErrorMsg := some [101], errorCount := 1 } [101] =
      { initialState with
        lastErrorMsg := some [101]
        errorCount := 2
        errors := [([101, 32, 40, 120, 50, 41], true)] } :=
  (error_dedup { initialState with lastErrorMsg := some [101], errorCount := 1 } [101]).1 rfl

/-- Claim C5: with initial delay 2.0, multiplier 2.0 and max 30.0 (the
defaults of `ConnectionConfig`), the waits before consecutive failed
reconnect attempts are 2, 4, 8, 16, 30, 30, …; after each wait the delay
becomes `min(current * multiplier, max)`; and a successful connect resets
the delay to the configured initial value, so the next wait is 2. -/
theorem backoff_sequence :
    (totalWait (delaySeq {} 0) = 2 ∧ totalWait (delaySeq {} 1) = 4 ∧
      totalWait (delaySeq {} 2) = 8 ∧ totalWait (delaySeq {} 3) = 16 ∧
      totalWait (delaySeq {} 4) = 30 ∧ totalWait (delaySeq {} 5) = 30) ∧
    (∀ n : Nat, totalWait (delaySeq {} (n + 4)) = 30) ∧
    (∀ (cfg : ConnectionConfig) (n : Nat),
      delaySeq cfg (n + 1) =
        min (delaySeq cfg n * cfg.retry_backoff_multiplier) cfg.max_retry_delay) ∧
    (onConnectedDelay {} = 2 ∧ totalWait (onConnectedDelay {}) = 2) := by
  have h0 : delaySeq {} 0 = 2 := rfl
  have hs : ∀ n : Nat, delaySeq {} (n + 1) = min (delaySeq {} n * 2) 30 := fun n => rfl
  have h1 : delaySeq {} 1 = 4 := by
    have h := hs 0
    rw [h0] at h
    rw [h]
    norm_num [min_def]
  have h2 : delaySeq {} 2 = 8 := by
    have h := hs 1
    rw [h1] at h
    rw [h]
    norm_num [min_def]
  have h3 : delaySeq {} 3 = 16 := by
    have h := hs 2
    rw [h2] at h
    rw [h]
    norm_num [min_def]
  have h4 : delaySeq {} 4 = 30 := by
    have h := hs 3
    rw [h3] at h
    rw [h]
    norm_num [min_def]
  have h5 : ∀ n : Nat, delaySeq {} (n + 4) = 30 := by
    intro n
    induction n with
    | zero => exact h4
    | succ k ih =>
      have h := hs (k + 4)
      rw [ih] at h
      rw [show k + 1 + 4 = k + 4 + 1 by omega, h]
      norm_num [min_def]
  refine ⟨⟨?_, ?_, ?_, ?_, ?_, ?_⟩, ?_, fun cfg n => rfl, rfl, ?_⟩
  · rw [h0]; exact totalWait_eq 2 (by norm_num)
  · rw [h1]; exact totalWait_eq 4 (by norm_num)
  · rw [h2]; exact totalWait_eq 8 (by norm_num)
  · rw [h3]; exact totalWait_eq 16 (by norm_num)
  · rw [h4]; exact totalWait_eq 30 (by norm_num)
  · rw [show (5 : Nat) = 1 + 4 by omega, h5 1]; exact totalWait_eq 30 (by norm_num)
  · intro n
    rw [h5 n]
    exact totalWait_eq 30 (by norm_num)
  · exact totalWait_eq 2 (by norm_num)

/-- Claim C7: `stop()` leaves the state `DISCONNECTED` with no running
sender, receiver or connection task and an empty correlation queue; every
placeholder that was still unresolved is cancelled so its blocked
`send_command` caller returns `None`; no error callback fires; and `stop`
is safe and idempotent from any state, including the never-started
`initialState` and an already-stopped state. -/
theorem shutdown_drains (st : MgrState) :
    (stop st).connState = ConnectionState.DISCONNECTED ∧
    (stop st).senderTask = false ∧
    (stop st).receiverTask = false ∧
    (stop st).connectionTask = false ∧
    (stop st).pendingQueue = [] ∧
    (stop st).errors = st.errors ∧
    (∀ i ∈ st.pendingQueue, i < st.futs.length →
      st.futs.getD i Fut.pending = Fut.pending →
      (stop st).futs.getD i Fut.pending = Fut.cancelled ∧
      futResult ((stop st).futs.getD i Fut.pending) = none) ∧
    stop (stop st) = stop st := by
  refine ⟨rfl, rfl, rfl, rfl, rfl, rfl, ?_, ?_⟩
  · intro i hi hlen hp
    have hc : (stop st).futs.getD i Fut.pending = Fut.cancelled := by
      show (st.pendingQueue.foldl
          (fun fs j => fs.set j (cancelFut (fs.getD j Fut.pending))) st.futs).getD i
          Fut.pending = Fut.cancelled
      exact foldl_cancel_mem st.pendingQueue st.futs i hi hlen hp
    refine ⟨hc, ?_⟩
    rw [hc]
    rfl
  · rfl

/-- Claim C7 witness: stopping with one pending command outstanding
cancels that placeholder (so its blocked caller gets `None`). -/
theorem shutdown_drains_witness :
    (stop busyState).connState = ConnectionState.DISCONNECTED ∧
    (stop busyState).futs.getD 0 Fut.pending = Fut.cancelled ∧
    futResult ((stop busyState).futs.getD 0 Fut.pending) = none ∧
    stop (stop initialState) = stop initialState :=
  ⟨(shutdown_drains busyState).1,
   ((shutdown_drains busyState).2.2.2.2.2.2.1 0 (by decide) (by decide) (by decide)).1,
   ((shutdown_drains busyState).2.2.2.2.2.2.1 0 (by decide) (by decide) (by decide)).2,
   (shutdown_drains initialState).2.2.2.2.2.2.2⟩

/-! ### Trace helpers for the correlation claims -/

lemma runTrace_cons (st : MgrState) (e : Ev) (evs : List Ev) :
    runTrace st (e :: evs) = runTrace (applyEv st e) evs := rfl

lemma onlySendRecv_cons {e : Ev} {rest : List Ev} (h : onlySendRecv (e :: rest) = true) :
    onlySendRecv rest = true := by
  simp only [onlySendRecv, List.all_cons, Bool.and_eq_true] at h ⊢
  exact h.2

lemma sendsOk_cons {e : Ev} {rest : List Ev} (h : sendsOk (e :: rest) = true) :
    sendsOk rest = true := by
  simp only [sendsOk, List.all_cons, Bool.and_eq_true] at h ⊢
  exact h.2

lemma sendsOk_head {c : List Nat} {rest : List Ev} (h : sendsOk (Ev.send c :: rest) = true) :
    pyStrip c ≠ [] := by
  simp only [sendsOk, List.all_cons, Bool.and_eq_true] at h
  exact of_decide_eq_true h.1

lemma getD_append_cons {α : Type} (xs ys : List α) (v d : α) :
    (xs ++ v :: ys).getD xs.length d = v := by
  rw [List.getD_eq_getElem?_getD, List.getElem?_append_right le_rfl]
  simp

lemma set_append_cons {α : Type} (xs ys : List α) (v w : α) :
    (xs ++ v :: ys).set xs.length w = xs ++ w :: ys := by
  induction xs with
  | nil => rfl
  | cons x xs ih => simp only [List.cons_append, List.length_cons, List.set_cons_succ, ih]

lemma getD_append_replicate {α : Type} (xs : List α) (m i : Nat) (v d : α)
    (h1 : xs.length ≤ i) (h2 : i < xs.length + m) :
    (xs ++ List.replicate m v).getD i d = v := by
  rw [List.getD_eq_getElem?_getD, List.getElem?_append_right h1, List.getElem?_replicate,
    if_pos (by omega)]
  rfl

lemma range'_append_one (m k : Nat) :
    List.range' m k ++ [m + k] = List.range' m (k + 1) := by
  rw [List.range'_concat]
  norm_num

lemma sendCount_eq_length (evs : List Ev) : sendCount evs = (sendList evs).length := by
  induction evs with
  | nil => rfl
  | cons e rest ih => cases e <;> simp [sendCount, sendList, ih]

lemma recvCount_eq_length (evs : List Ev) : recvCount evs = (recvList evs).length := by
  induction evs with
  | nil => rfl
  | cons e rest ih => cases e <;> simp [recvCount, recvList, ih]

/-- Characterisation of a send/receive trace run from a state whose
correlation queue holds `k` consecutive pending futures preceded by
`doneVals.length` resolved ones: sends append pending futures, each
receive resolves the oldest pending future with its payload, and the
shape is preserved. -/
lemma runTrace_char (evs : List Ev) : ∀ (doneVals : List (List Nat)) (k : Nat) (st : MgrState),
    st.futs = doneVals.map Fut.resolved ++ List.replicate k Fut.pending →
    st.pendingQueue = List.range' doneVals.length k →
    onlySendRecv evs = true →
    sendsOk evs = true →
    (∀ n : Nat, recvCount (evs.take n) ≤ k + sendCount (evs.take n)) →
    (runTrace st evs).futs =
      (doneVals ++ recvList evs).map Fut.resolved ++
        List.replicate (k + sendCount evs - recvCount evs) Fut.pending ∧
    (runTrace st evs).pendingQueue =
      List.range' (doneVals.length + recvCount evs) (k + sendCount evs - recvCount evs) := by
  induction evs with
  | nil =>
    intro doneVals k st hf hq _ _ _
    constructor
    · simpa [runTrace, sendCount, recvCount, recvList] using hf
    · simpa [runTrace, sendCount, recvCount, recvList] using hq
  | cons e rest ih =>
    intro doneVals k st hf hq ho hs hp
    cases e with
    | timeout i =>
      exfalso
      simp [onlySendRecv, List.all_cons] at ho
    | send c =>
      have hcb : pyStrip c ≠ [] := sendsOk_head hs
      have ho' := onlySendRecv_cons ho
      have hs' := sendsOk_cons hs
      have hp' : ∀ n, recvCount (rest.take n) ≤ (k + 1) + sendCount (rest.take n) := by
        intro n
        have h := hp (n + 1)
        rw [List.take_succ_cons] at h
        simp only [recvCount, sendCount] at h
        omega
      have hfuts' : (applyEv st (Ev.send c)).futs = st.futs ++ [Fut.pending] := by
        unfold applyEv sendCommand
        dsimp only
        rw [if_neg hcb]
      have hflen : st.futs.length = doneVals.length + k := by
        rw [hf]; simp
      have hqueue' : (applyEv st (Ev.send c)).pendingQueue =
          st.pendingQueue ++ [st.futs.length] := by
        unfold applyEv sendCommand
        dsimp only
        rw [if_neg hcb]
      obtain ⟨ihf, ihq⟩ := ih doneVals (k + 1) (applyEv st (Ev.send c))
        (by rw [hfuts', hf, List.append_assoc, ← List.replicate_succ'])
        (by rw [hqueue', hq, hflen, range'_append_one])
        ho' hs' hp'
      rw [runTrace_cons]
      constructor
      · rw [ihf]
        simp only [recvList, sendCount, recvCount]
        rw [show k + (sendCount rest + 1) - recvCount rest =
          k + 1 + sendCount rest - recvCount rest from by omega]
      · rw [ihq]
        simp only [recvList, sendCount, recvCount]
        rw [show k + (sendCount rest + 1) - recvCount rest =
          k + 1 + sendCount rest - recvCount rest from by omega]
    | recv r =>
      have ho' := onlySendRecv_cons ho
      have hs' := sendsOk_cons hs
      have hk : 1 ≤ k := by
        have h := hp 1
        rw [List.take_succ_cons, List.take_zero] at h
        simp only [recvCount, sendCount] at h
        omega
      obtain ⟨k', rfl⟩ : ∃ k', k = k' + 1 := ⟨k - 1, by omega⟩
      have hqc : st.pendingQueue = doneVals.length :: List.range' (doneVals.length + 1) k' := by
        rw [hq, List.range'_succ]
      have hfc : st.futs =
          doneVals.map Fut.resolved ++ Fut.pending :: List.replicate k' Fut.pending := by
        rw [hf, List.replicate_succ]
      have hget : st.futs.getD doneVals.length Fut.pending = Fut.pending := by
        rw [hfc]
        have h := getD_append_cons (doneVals.map Fut.resolved)
          (List.replicate k' Fut.pending) Fut.pending Fut.pending
        rw [List.length_map] at h
        exact h
      have hfuts' : (applyEv st (Ev.recv r)).futs =
          (doneVals ++ [r]).map Fut.resolved ++ List.replicate k' Fut.pending := by
        show (deliverMessage st { msg_type := MESSAGE_TYPE, payload := r }).futs = _
        unfold deliverMessage
        dsimp only
        rw [hqc]
        dsimp only
        rw [hget]
        dsimp only [resolveFut]
        rw [hfc]
        have hsetc := set_append_cons (doneVals.map Fut.resolved)
          (List.replicate k' Fut.pending) Fut.pending (Fut.resolved r)
        rw [List.length_map] at hsetc
        rw [hsetc]
        simp
      have hqueue' : (applyEv st (Ev.recv r)).pendingQueue =
          List.range' ((doneVals ++ [r]).length) k' := by
        show (deliverMessage st { msg_type := MESSAGE_TYPE, payload := r }).pendingQueue = _
        unfold deliverMessage
        dsimp only
        rw [hqc]
        dsimp only
        simp
      have hp' : ∀ n, recvCount (rest.take n) ≤ k' + sendCount (rest.take n) := by
        intro n
        have h := hp (n + 1)
        rw [List.take_succ_cons] at h
        simp only [recvCount, sendCount] at h
        omega
      obtain ⟨ihf, ihq⟩ := ih (doneVals ++ [r]) k' (applyEv st (Ev.recv r))
        hfuts' hqueue' ho' hs' hp'
      rw [runTrace_cons]
      constructor
      · rw [ihf]
        simp only [recvList, sendCount, recvCount, List.append_assoc, List.singleton_append]
        rw [show k' + 1 + sendCount rest - (recvCount rest + 1) =
          k' + sendCount rest - recvCount rest from by omega]
      · rw [ihq]
        simp only [recvList, sendCount, recvCount, List.length_append, List.length_cons,
          List.length_nil]
        rw [show k' + 1 + sendCount rest - (recvCount rest + 1) =
          k' + sendCount rest - recvCount rest from by omega,
          show doneVals.length + (0 + 1) + recvCount rest =
          doneVals.length + (recvCount rest + 1) from by omega]

/-- Claim C1: in any interleaving of three non-blank `send_command` calls
`A, B, C` (in that order) with three inbound responses `r1, r2, r3` (in
that arrival order, never ahead of the sends), the correlator resolves
`A → r1`, `B → r2`, `C → r3`; and after every prefix of the interleaving
the number of not-yet-resolved placeholders in the correlation queue
equals the number of commands sent but not yet answered. -/
theorem fifo_correlation (A B C r1 r2 r3 : List Nat) (evs : List Ev)
    (ho : onlySendRecv evs = true) (hs : sendsOk evs = true)
    (hsl : sendList evs = [A, B, C]) (hrl : recvList evs = [r1, r2, r3])
    (hp : ∀ n, n ≤ evs.length → recvCount (evs.take n) ≤ sendCount (evs.take n)) :
    (runTrace initialState evs).futs =
      [Fut.resolved r1, Fut.resolved r2, Fut.resolved r3] ∧
    (∀ n, n ≤ evs.length →
      unresolvedCount (runTrace initialState (evs.take n)) =
        sendCount (evs.take n) - recvCount (evs.take n)) := by
  have hp0 : ∀ n, recvCount (evs.take n) ≤ 0 + sendCount (evs.take n) := by
    intro n
    rcases le_or_lt n evs.length with h | h
    · simpa using hp n h
    · rw [List.take_of_length_le (le_of_lt h)]
      have hl := hp evs.length le_rfl
      rw [List.take_length] at hl
      simpa using hl
  constructor
  · obtain ⟨h1, _⟩ := runTrace_char evs [] 0 initialState rfl rfl ho hs hp0
    have hsc : sendCount evs = 3 := by rw [sendCount_eq_length, hsl]; rfl
    have hrc : recvCount evs = 3 := by rw [recvCount_eq_length, hrl]; rfl
    rw [h1, hrl, hsc, hrc]
    rfl
  · intro n _
    have ho' : onlySendRecv (evs.take n) = true := by
      simp only [onlySendRecv, List.all_eq_true] at ho ⊢
      intro e he
      exact ho e (List.mem_of_mem_take he)
    have hs' : sendsOk (evs.take n) = true := by
      simp only [sendsOk, List.all_eq_true] at hs ⊢
      intro e he
      exact hs e (List.mem_of_mem_take he)
    have hp'' : ∀ m, recvCount ((evs.take n).take m) ≤ 0 + sendCount ((evs.take n).take m) := by
      intro m
      rw [List.take_take]
      exact hp0 (min m n)
    obtain ⟨h1, h2⟩ := runTrace_char (evs.take n) [] 0 initialState rfl rfl ho' hs' hp''
    unfold unresolvedCount
    rw [h1, h2]
    simp only [List.nil_append, List.length_nil, Nat.zero_add]
    rw [List.countP_eq_length.mpr ?_, List.length_range']
    intro i hi
    rw [List.mem_range'] at hi
    obtain ⟨j, hj, rfl⟩ := hi
    apply decide_eq_true
    apply getD_append_replicate
    · rw [List.length_map, ← recvCount_eq_length]
      omega
    · rw [List.length_map, ← recvCount_eq_length]
      omega

/-- Claim C1 witness: the concrete trace sending `"a" "b" "c"` then
receiving `"x" "y" "z"`; the invariant is checked at the prefix with all
three commands sent and none answered. -/
theorem fifo_correlation_witness :
    (runTrace initialState abcTrace).futs =
      [Fut.resolved [120], Fut.resolved [121], Fut.resolved [122]] ∧
    unresolvedCount (runTrace initialState (abcTrace.take 3)) =
      sendCount (abcTrace.take 3) - recvCount (abcTrace.take 3) :=
  ⟨(fifo_correlation [97] [98] [99] [120] [121] [122] abcTrace
      (by decide) (by decide) (by decide) (by decide) (by decide)).1,
   (fifo_correlation [97] [98] [99] [120] [121] [122] abcTrace
      (by decide) (by decide) (by decide) (by decide) (by decide)).2 3 (by decide)⟩

/-- Claim C9: after a command `A` times out, its placeholder stays at the
front of the correlation queue; the next inbound message `r1` pops that
already-done placeholder (going only to the `on_response` callback) and is
never matched to the later command `B`, which is resolved by the following
message `r2`; the timed-out caller still receives `None`. -/
theorem stale_timeout (A B r1 r2 : List Nat)
    (hA : pyStrip A ≠ []) (hB : pyStrip B ≠ []) :
    (runTrace initialState [Ev.send A, Ev.timeout 0, Ev.send B]).pendingQueue = [0, 1] ∧
    (runTrace initialState [Ev.send A, Ev.timeout 0, Ev.send B]).futs =
      [Fut.cancelled, Fut.pending] ∧
    (runTrace initialState [Ev.send A, Ev.timeout 0, Ev.send B, Ev.recv r1]).pendingQueue =
      [1] ∧
    (runTrace initialState [Ev.send A, Ev.timeout 0, Ev.send B, Ev.recv r1]).futs =
      [Fut.cancelled, Fut.pending] ∧
    (runTrace initialState [Ev.send A, Ev.timeout 0, Ev.send B, Ev.recv r1]).responses =
      [r1] ∧
    (runTrace initialState [Ev.send A, Ev.timeout 0, Ev.send B, Ev.recv r1,
      Ev.recv r2]).futs = [Fut.cancelled, Fut.resolved r2] ∧
    (runTrace initialState [Ev.send A, Ev.timeout 0, Ev.send B, Ev.recv r1,
      Ev.recv r2]).responses = [r1, r2] ∧
    futResult ((runTrace initialState [Ev.send A, Ev.timeout 0, Ev.send B, Ev.recv r1,
      Ev.recv r2]).futs.getD 0 Fut.pending) = none := by
  simp [runTrace, applyEv, sendCommand, deliverMessage, initialState, hA, hB,
    resolveFut, cancelFut, futResult]

/-- Claim C9 witness: the stale-timeout scenario at concrete commands
`"a"`, `"b"` and responses. -/
theorem stale_timeout_witness :
    futResult ((runTrace initialState [Ev.send [97], Ev.timeout 0, Ev.send [98],
      Ev.recv [10], Ev.recv [11]]).futs.getD 0 Fut.pending) = none :=
  (stale_timeout [97] [98] [10] [11] (by decide) (by decide)).2.2.2.2.2.2.2

end Civ7
